import Mathlib

/-!
Verification development for the public-key layer of cryptodev-linux
(`ncr-pk.c`).  The file shallowly embeds the C functions of that file over
an abstract interface `Prims` standing for the external libtomcrypt
primitives (`rsa_export`, `rsa_import`, `rsa_make_key`, `hash_memory`,
the cipher/sign primitives, ...) and for the algorithm-registry lookup
`_ncr_algo_to_properties`, which live outside this source file.

Conventions of the embedding:
* machine integers are `Nat`/`Int`; C byte buffers are `List Nat`;
* an out-parameter is threaded explicitly: a function both returns its C
  return value and the final values of the locations it may write;
* a null-pointer dereference is a crash, modeled by an `Option` result
  whose `none` case is reachable exactly where the C code would fault;
* the libtomcrypt key structures `rsa_key`/`dsa_key` are abstract types
  `R`/`D`; the `type` field read by `ncr_pk_pack` is exposed through the
  projections `Prims.rsaType`/`Prims.dsaType`.
-/

namespace NcrPk

/-- Kernel errno values used by `ncr-pk.c` (external constants from
`errno.h`; the code only ever returns their negations). -/
def EINVAL : Int := 22

def ENOMEM : Int := 12

def EOVERFLOW : Int := 75

/-- libtomcrypt status codes (external constants from `tomcrypt.h`);
only the three cases distinguished by `tomerr` need fixed values. -/
def CRYPT_OK : Int := 0

def CRYPT_BUFFER_OVERFLOW : Int := 6

def CRYPT_MEM : Int := 13

/-- Modelled from the spec: the NCR error value signalling the
verification-failed policy outcome (`NCR_VERIFICATION_FAILED` is declared
in `ncr.h`, which is not part of `src/`).  It is a positive enumeration
value, distinct from 0 (success) and from every negative errno. -/
def NCR_VERIFICATION_FAILED : Int := 1

/-- Modelled from the spec: the fixed maximum key-identifier size constant
(`MAX_KEY_ID_SIZE` from `ncr.h`, not in `src/`). -/
def MAX_KEY_ID_SIZE : Nat := 20

/-- Modelled from the spec: the fixed maximum key-data size constant
(`KEY_DATA_MAX_SIZE` from `ncr_int.h`, not in `src/`) bounding the
temporary export buffer of key generation. -/
def KEY_DATA_MAX_SIZE : Nat := 3072

/-- Embedding of `tomerr` from `ncr-pk.c`: maps a libtomcrypt status code to a negative
kernel errno. -/
def tomerr (err : Int) : Int :=
  if err = CRYPT_BUFFER_OVERFLOW then -EOVERFLOW
  else if err = CRYPT_MEM then -ENOMEM
  else -EINVAL

/-- The NCR algorithm identifiers used by this file (`ncr_algorithm_t`;
the full enumeration lives in `ncr.h`, these are the members `ncr-pk.c`
mentions). -/
inductive ncr_algorithm_t
  | NCR_ALG_NONE
  | NCR_ALG_SHA1
  | NCR_ALG_RSA
  | NCR_ALG_DSA
  deriving DecidableEq, Repr

/-- Algorithm-properties record (the registry entry `ncr-pk.c` receives
pointers to; only the `algo` discriminant is read by this file). -/
structure algo_properties_st where
  algo : ncr_algorithm_t
  deriving DecidableEq, Repr

/-- libtomcrypt key-export selector (`PK_PRIVATE` / `PK_PUBLIC`). -/
inductive PkType
  | pkPrivate
  | pkPublic
  deriving DecidableEq, Repr

/-- RSA padding selector stored in `ncr_key_params_st`
(`ncr_rsa_type_t` from `ncr.h`): PKCS#1 v1.5, OAEP or PSS. -/
inductive ncr_rsa_type_t
  | RSA_PKCS1_V1_5
  | RSA_PKCS1_OAEP
  | RSA_PKCS1_PSS
  deriving DecidableEq, Repr

/-- libtomcrypt padding-mode constants (`LTC_LTC_PKCS_1_*`). -/
def LTC_LTC_PKCS_1_V1_5 : Int := 1

def LTC_LTC_PKCS_1_OAEP : Int := 2

def LTC_LTC_PKCS_1_PSS : Int := 3

/-- One key item (`struct key_item_st`), restricted to the fields
`ncr-pk.c` reads or writes: the algorithm pointer (NULL modeled as
`none`), the pk union (both arms carried; the algorithm discriminant
selects the live one, as in the C union), and the key identifier with its
length.  The identifier buffer is modeled as the list of meaningful bytes
last written into it. -/
structure key_item_st (R D : Type) where
  algorithm : Option algo_properties_st
  pk_rsa : R
  pk_dsa : D
  key_id : List Nat
  key_id_size : Nat
  deriving DecidableEq, Repr

/-- RSA member of the generation-parameter union (`ncr.h`): modulus bits
and public exponent. -/
structure rsa_gen_params where
  bits : Nat
  e : Nat
  deriving DecidableEq, Repr

/-- DSA member of the generation-parameter union (`ncr.h`): subgroup and
modulus bit sizes. -/
structure dsa_gen_params where
  q_bits : Nat
  p_bits : Nat
  deriving DecidableEq, Repr

/-- Modelled from the spec: `struct ncr_key_generate_params_st` from
`ncr.h` (not in `src/`) — an algorithm identifier plus the family-specific
parameter union, here flattened into two fields so frame conditions can be
stated. -/
structure ncr_key_generate_params_st where
  algorithm : ncr_algorithm_t
  rsa : rsa_gen_params
  dsa : dsa_gen_params
  deriving DecidableEq, Repr

/-- RSA member of the cipher-parameter union (`ncr.h`): padding type,
OAEP hash, sign hash and PSS salt length. -/
structure rsa_key_params where
  type : ncr_rsa_type_t
  oaep_hash : ncr_algorithm_t
  sign_hash : ncr_algorithm_t
  pss_salt : Nat
  deriving DecidableEq, Repr

/-- DSA member of the cipher-parameter union (`ncr.h`): sign hash. -/
structure dsa_key_params where
  sign_hash : ncr_algorithm_t
  deriving DecidableEq, Repr

/-- Modelled from the spec: `struct ncr_key_params_st` from `ncr.h` (not
in `src/`), restricted to the members `ncr-pk.c` reads. -/
structure ncr_key_params_st where
  rsa : rsa_key_params
  dsa : dsa_key_params
  deriving DecidableEq, Repr

/-- The abstract interface to the external libtomcrypt primitives and the
algorithm registry, out of scope of this file (the spec delegates the
numeric math to the library).  `R` and `D` are the opaque `rsa_key` /
`dsa_key` structure types.  Each field mirrors the C calling convention
of the primitive it stands for:
* `rsa_export cap ty k = (cret, bytes, outlen)` — export with a buffer of
  capacity `cap`; `bytes` is the buffer content written, `outlen` the
  value stored through the size pointer;
* `rsa_import bytes = (cret, k)`;
* `rsa_make_key size e = (cret, k)`;
* `hash_memory md cap msg = (cret, digest, outlen)` — `md` is the
  registry entry for the hash (`NULL` as `none`), `cap` the capacity of
  the destination buffer;
* `rsa_encrypt_key input cap oaepHash padType k = (cret, out, outlen)`;
* `rsa_decrypt_key input cap oaepHash padType k = (cret, out, outlen,
  stat)` — `stat` is the validity out-parameter;
* `rsa_sign_hash input cap padType hash saltLen k = (cret, out, outlen)`;
* `rsa_verify_hash sig hash padType mdHash saltLen k = (cret, stat)`;
* `dsa_sign_hash input cap k = (cret, out, outlen)`;
* `dsa_verify_hash sig hash k = (cret, stat)`;
* `algo_to_properties` is `_ncr_algo_to_properties` (NULL as `none`);
* `rsaType` / `dsaType` read the `type` field of the key structure;
* `kmallocFails` abstracts whether the one `kmalloc` of
  `ncr_pk_make_public_and_id` fails. -/
structure Prims (R D : Type) where
  rsa_make_key : Nat → Nat → Int × R
  dsa_make_key : Nat → Nat → Int × D
  rsa_export : Nat → PkType → R → Int × List Nat × Nat
  rsa_import : List Nat → Int × R
  dsa_export : Nat → PkType → D → Int × List Nat × Nat
  dsa_import : List Nat → Int × D
  hash_memory : Option algo_properties_st → Nat → List Nat → Int × List Nat × Nat
  rsa_encrypt_key : List Nat → Nat → Option algo_properties_st → Int → R → Int × List Nat × Nat
  rsa_decrypt_key : List Nat → Nat → Option algo_properties_st → Int → R → Int × List Nat × Nat × Int
  rsa_sign_hash : List Nat → Nat → Int → algo_properties_st → Nat → R → Int × List Nat × Nat
  rsa_verify_hash : List Nat → List Nat → Int → algo_properties_st → Nat → R → Int × Int
  dsa_sign_hash : List Nat → Nat → D → Int × List Nat × Nat
  dsa_verify_hash : List Nat → List Nat → D → Int × Int
  algo_to_properties : ncr_algorithm_t → Option algo_properties_st
  rsaType : R → PkType
  dsaType : D → PkType
  kmallocFails : Bool

variable {R D : Type}

/-- Embedding of `ncr_pk_pack` from `ncr-pk.c`.  `packed_null` models whether the data
pointer `packed` is NULL; `packed_size` is the size pointer: `none` is a
NULL pointer, `some sz` a pointer to the value `sz`.  The C function reads
`*packed_size` in the initializer of `max_size`, before its NULL test, so
a `none` size pointer crashes (result `none`) — as does a NULL
`key->algorithm`, dereferenced by the switch.  On a non-crashing call the
result is `(return value, final *packed_size, buffer bytes written)`. -/
def ncr_pk_pack (P : Prims R D) (key : key_item_st R D) (packed_null : Bool)
    (packed_size : Option Nat) : Option (Int × Nat × List Nat) :=
  match packed_size with
  | none => none
  | some sz =>
    let max_size := sz
    if packed_null || (some sz).isNone then
      some (-EINVAL, sz, [])
    else
      match key.algorithm with
      | none => none
      | some alg =>
        match alg.algo with
        | .NCR_ALG_RSA =>
          let res := P.rsa_export max_size (P.rsaType key.pk_rsa) key.pk_rsa
          if res.1 ≠ CRYPT_OK then
            some (tomerr res.1, res.2.2, res.2.1)
          else
            some (0, res.2.2, res.2.1)
        | .NCR_ALG_DSA =>
          let res := P.dsa_export max_size (P.dsaType key.pk_dsa) key.pk_dsa
          if res.1 ≠ CRYPT_OK then
            some (tomerr res.1, res.2.2, res.2.1)
          else
            some (0, res.2.2, res.2.1)
        | _ => some (-EINVAL, sz, [])

/-- Variant of `ncr_pk_pack` whose NULL guard tests only the data
pointer, used to state that the `packed_size == NULL` half of the guard
is redundant. -/
def ncr_pk_pack_noSizeGuard (P : Prims R D) (key : key_item_st R D)
    (packed_null : Bool) (packed_size : Option Nat) :
    Option (Int × Nat × List Nat) :=
  match packed_size with
  | none => none
  | some sz =>
    let max_size := sz
    if packed_null then
      some (-EINVAL, sz, [])
    else
      match key.algorithm with
      | none => none
      | some alg =>
        match alg.algo with
        | .NCR_ALG_RSA =>
          let res := P.rsa_export max_size (P.rsaType key.pk_rsa) key.pk_rsa
          if res.1 ≠ CRYPT_OK then
            some (tomerr res.1, res.2.2, res.2.1)
          else
            some (0, res.2.2, res.2.1)
        | .NCR_ALG_DSA =>
          let res := P.dsa_export max_size (P.dsaType key.pk_dsa) key.pk_dsa
          if res.1 ≠ CRYPT_OK then
            some (tomerr res.1, res.2.2, res.2.1)
          else
            some (0, res.2.2, res.2.1)
        | _ => some (-EINVAL, sz, [])

/-- Embedding of `ncr_pk_unpack` from `ncr-pk.c`.  `key` and `packed` are pointers
(`none` = NULL); the byte list stands for the `packed_size` bytes at the
data pointer.  Result: `(return value, final key item)`; the NULL guard
runs before any dereference, a NULL `key->algorithm` crashes. -/
def ncr_pk_unpack (P : Prims R D) (key : Option (key_item_st R D))
    (packed : Option (List Nat)) : Option (Int × Option (key_item_st R D)) :=
  match key, packed with
  | some k, some bytes =>
    (match k.algorithm with
     | none => none
     | some alg =>
       match alg.algo with
       | .NCR_ALG_RSA =>
         let res := P.rsa_import bytes
         if res.1 ≠ CRYPT_OK then
           some (tomerr res.1, some k)
         else
           some (0, some { k with pk_rsa := res.2 })
       | .NCR_ALG_DSA =>
         let res := P.dsa_import bytes
         if res.1 ≠ CRYPT_OK then
           some (tomerr res.1, some k)
         else
           some (0, some { k with pk_dsa := res.2 })
       | _ => some (-EINVAL, some k))
  | k, _ => some (-EINVAL, k)

/-- The common tail of `ncr_pk_make_public_and_id` (lines 113-121): hash
the exported public bytes with the registry's SHA-1 entry into the private
item's identifier buffer (capacity `MAX_KEY_ID_SIZE`), record the digest
length in both items, and `memcpy` the first `key_id_size` identifier
bytes into the public item. -/
def hashAndCopyId (P : Prims R D) (tmp : List Nat)
    (priv pub : key_item_st R D) :
    Option (Int × key_item_st R D × key_item_st R D) :=
  let res := P.hash_memory (P.algo_to_properties .NCR_ALG_SHA1)
      MAX_KEY_ID_SIZE tmp
  if res.1 ≠ CRYPT_OK then
    some (tomerr res.1, priv, pub)
  else
    let priv := { priv with key_id := res.2.1, key_id_size := res.2.2 }
    let pub := { pub with key_id := priv.key_id.take priv.key_id_size,
                          key_id_size := res.2.2 }
    some (0, priv, pub)

/-- Embedding of `ncr_pk_make_public_and_id` from `ncr-pk.c`: export the private key's
public component into a temporary buffer, re-import it into the public
item, then derive the shared key identifier by hashing the exported
bytes.  A NULL `private->algorithm` crashes (the switch dereferences it);
the `kmalloc` failure returns `-ENOMEM`.  The byte list returned by an
export primitive stands for the `max_size` bytes it left in the buffer,
which the code passes on to import and hash. -/
def ncr_pk_make_public_and_id (P : Prims R D) (priv pub : key_item_st R D) :
    Option (Int × key_item_st R D × key_item_st R D) :=
  if P.kmallocFails then some (-ENOMEM, priv, pub)
  else
    match priv.algorithm with
    | none => none
    | some alg =>
      match alg.algo with
      | .NCR_ALG_RSA =>
        let res := P.rsa_export KEY_DATA_MAX_SIZE .pkPublic priv.pk_rsa
        if res.1 ≠ CRYPT_OK then
          some (tomerr res.1, priv, pub)
        else
          let res2 := P.rsa_import res.2.1
          if res2.1 ≠ CRYPT_OK then
            some (tomerr res2.1, priv, pub)
          else
            hashAndCopyId P res.2.1 priv { pub with pk_rsa := res2.2 }
      | .NCR_ALG_DSA =>
        let res := P.dsa_export KEY_DATA_MAX_SIZE .pkPublic priv.pk_dsa
        if res.1 ≠ CRYPT_OK then
          some (tomerr res.1, priv, pub)
        else
          let res2 := P.dsa_import res.2.1
          if res2.1 ≠ CRYPT_OK then
            some (tomerr res2.1, priv, pub)
          else
            hashAndCopyId P res.2.1 priv { pub with pk_dsa := res2.2 }
      | _ => some (-EINVAL, priv, pub)

/-- Embedding of `keygen_handler` from `ncr-pk.c`, the body the generation worker runs:
dispatch on the requested family, substitute the documented defaults
(RSA exponent 65537 for 0, in a local; DSA 160/1024 q/p bits for 0,
written back into the request), call the make-key primitive.  Result:
`(st->ret, private item, final request)`. -/
def keygen_handler (P : Prims R D) (algo : algo_properties_st)
    (params : ncr_key_generate_params_st) (priv : key_item_st R D) :
    Int × key_item_st R D × ncr_key_generate_params_st :=
  match algo.algo with
  | .NCR_ALG_RSA =>
    let e := params.rsa.e
    let e := if e = 0 then 65537 else e
    let res := P.rsa_make_key (params.rsa.bits / 8) e
    if res.1 ≠ CRYPT_OK then (tomerr res.1, priv, params)
    else (0, { priv with pk_rsa := res.2 }, params)
  | .NCR_ALG_DSA =>
    let params :=
      if params.dsa.q_bits = 0 then
        { params with dsa := { params.dsa with q_bits := 160 } }
      else params
    let params :=
      if params.dsa.p_bits = 0 then
        { params with dsa := { params.dsa with p_bits := 1024 } }
      else params
    let res := P.dsa_make_key (params.dsa.q_bits / 8) (params.dsa.p_bits / 8)
    if res.1 ≠ CRYPT_OK then (tomerr res.1, priv, params)
    else (0, { priv with pk_dsa := res.2 }, params)
  | _ => (-EINVAL, priv, params)

/-- Embedding of `ncr_pk_generate` from `ncr-pk.c`: set both items' algorithm, run the
generation work on the single-worker queue and wait for it (the queue is
FIFO with one worker, so the submitted `keygen_handler` runs exactly once
to completion before the wait returns; `queue_work` itself never returns
a negative value), then derive the public key and identifier.  Result:
`(return value, private item, public item, final request)`. -/
def ncr_pk_generate (P : Prims R D) (algo : algo_properties_st)
    (params : ncr_key_generate_params_st) (priv pub : key_item_st R D) :
    Option (Int × key_item_st R D × key_item_st R D ×
            ncr_key_generate_params_st) :=
  let priv := { priv with algorithm := some algo }
  let pub := { pub with algorithm := some algo }
  let hres := keygen_handler P algo params priv
  if hres.1 < 0 then some (hres.1, hres.2.1, pub, hres.2.2)
  else
    match ncr_pk_make_public_and_id P hres.2.1 pub with
    | none => none
    | some (ret, priv, pub) =>
      if ret < 0 then some (ret, priv, pub, hres.2.2)
      else some (0, priv, pub, hres.2.2)

/-- Embedding of `ncr_key_params_get_sign_hash` from `ncr-pk.c`: pick the
family-specific sign-hash identifier out of the parameter union and look
it up in the registry; a non-pk algorithm yields the `ERR_PTR(-EINVAL)`
sentinel, modeled as `Except.error`. -/
def ncr_key_params_get_sign_hash (P : Prims R D) (algo : algo_properties_st)
    (params : ncr_key_params_st) : Except Int (Option algo_properties_st) :=
  match algo.algo with
  | .NCR_ALG_RSA => .ok (P.algo_to_properties params.rsa.sign_hash)
  | .NCR_ALG_DSA => .ok (P.algo_to_properties params.dsa.sign_hash)
  | _ => .error (-EINVAL)

/-- The cipher/signature context (`struct ncr_pk_ctx`), restricted to the
fields `ncr-pk.c` uses.  Pointer fields model NULL as `none`; `init` is
the C int flag. -/
structure ncr_pk_ctx (R D : Type) where
  algorithm : Option algo_properties_st
  key : Option (key_item_st R D)
  sign_hash : Option algo_properties_st
  oaep_hash : Option algo_properties_st
  type : Int
  salt_len : Nat
  init : Int
  deriving DecidableEq, Repr

/-- The all-zero context produced by the `memset` opening
`ncr_pk_cipher_init`. -/
def zeroCtx : ncr_pk_ctx R D :=
  { algorithm := none, key := none, sign_hash := none, oaep_hash := none,
    type := 0, salt_len := 0, init := 0 }

/-- Embedding of `ncr_pk_cipher_deinit` from `ncr-pk.c`. -/
def ncr_pk_cipher_deinit (ctx : ncr_pk_ctx R D) : ncr_pk_ctx R D :=
  if ctx.init ≠ 0 then { ctx with init := 0, key := none } else ctx

/-- Embedding of `ncr_pk_cipher_init` from `ncr-pk.c`: zero the context, reject a
key/algorithm mismatch, bind algorithm and key, resolve the sign hash
(an `ERR_PTR` result is returned as the error code; the C code parks the
sentinel in `ctx->sign_hash`, which stays `none` here), select the RSA
padding mode (the final branch of the C if-chain is the PSS test, which
is the remaining constructor), store the PSS salt length, and only then
set the `init` flag.  Result: `(return value, final context)`. -/
def ncr_pk_cipher_init (P : Prims R D) (algo : algo_properties_st)
    (params : ncr_key_params_st) (key : key_item_st R D) :
    Int × ncr_pk_ctx R D :=
  let ctx : ncr_pk_ctx R D := zeroCtx
  if key.algorithm ≠ some algo then (-EINVAL, ctx)
  else
    let ctx := { ctx with algorithm := some algo, key := some key }
    match ncr_key_params_get_sign_hash P algo params with
    | .error e => (e, ctx)
    | .ok sh =>
      let ctx := { ctx with sign_hash := sh }
      match algo.algo with
      | .NCR_ALG_RSA =>
        if params.rsa.type = .RSA_PKCS1_V1_5 then
          let ctx := { ctx with type := LTC_LTC_PKCS_1_V1_5 }
          (0, { ctx with salt_len := params.rsa.pss_salt, init := 1 })
        else if params.rsa.type = .RSA_PKCS1_OAEP then
          let ctx := { ctx with
            type := LTC_LTC_PKCS_1_OAEP,
            oaep_hash := P.algo_to_properties params.rsa.oaep_hash }
          if ctx.oaep_hash = none then (-EINVAL, ctx)
          else (0, { ctx with salt_len := params.rsa.pss_salt, init := 1 })
        else
          let ctx := { ctx with type := LTC_LTC_PKCS_1_PSS }
          (0, { ctx with salt_len := params.rsa.pss_salt, init := 1 })
      | .NCR_ALG_DSA => (0, { ctx with init := 1 })
      | _ => (-EINVAL, ctx)

/-- Embedding of `ncr_pk_cipher_encrypt` from `ncr-pk.c`.  `output` is the content of
the caller's buffer before the call (returned unchanged on paths that do
not complete the primitive; what a failing primitive left in the buffer
is not observable through the interface, no caller reads it).  Result:
`(return value, final buffer, final *output_size)`; the DSA arm returns
`-EINVAL` before touching any primitive or the key. -/
def ncr_pk_cipher_encrypt (P : Prims R D) (ctx : ncr_pk_ctx R D)
    (input : List Nat) (output : List Nat) (output_size : Nat) :
    Option (Int × List Nat × Nat) :=
  match ctx.algorithm with
  | none => none
  | some alg =>
    match alg.algo with
    | .NCR_ALG_RSA =>
      match ctx.key with
      | none => none
      | some key =>
        let res := P.rsa_encrypt_key input output_size ctx.oaep_hash
            ctx.type key.pk_rsa
        if res.1 ≠ CRYPT_OK then some (tomerr res.1, output, output_size)
        else some (0, res.2.1, res.2.2)
    | .NCR_ALG_DSA => some (-EINVAL, output, output_size)
    | _ => some (-EINVAL, output, output_size)

/-- Embedding of `ncr_pk_cipher_decrypt` from `ncr-pk.c`.  The RSA primitive returns
both a status code and the padding-validity out-parameter `stat`; a
structurally successful decrypt with `stat == 0` is turned into
`-EINVAL` without storing a produced size.  The DSA arm returns `-EINVAL`
before touching any primitive or the key. -/
def ncr_pk_cipher_decrypt (P : Prims R D) (ctx : ncr_pk_ctx R D)
    (input : List Nat) (output : List Nat) (output_size : Nat) :
    Option (Int × List Nat × Nat) :=
  match ctx.algorithm with
  | none => none
  | some alg =>
    match alg.algo with
    | .NCR_ALG_RSA =>
      match ctx.key with
      | none => none
      | some key =>
        let res := P.rsa_decrypt_key input output_size ctx.oaep_hash
            ctx.type key.pk_rsa
        if res.1 ≠ CRYPT_OK then some (tomerr res.1, output, output_size)
        else if res.2.2.2 = 0 then some (-EINVAL, output, output_size)
        else some (0, res.2.1, res.2.2.1)
    | .NCR_ALG_DSA => some (-EINVAL, output, output_size)
    | _ => some (-EINVAL, output, output_size)

/-- Embedding of `ncr_pk_cipher_sign` from `ncr-pk.c`: RSA requires a resolved sign
hash and signs with the context's padding mode, hash and salt length;
DSA signs directly. -/
def ncr_pk_cipher_sign (P : Prims R D) (ctx : ncr_pk_ctx R D)
    (input : List Nat) (output : List Nat) (output_size : Nat) :
    Option (Int × List Nat × Nat) :=
  match ctx.algorithm with
  | none => none
  | some alg =>
    match alg.algo with
    | .NCR_ALG_RSA =>
      match ctx.sign_hash with
      | none => some (-EINVAL, output, output_size)
      | some sh =>
        match ctx.key with
        | none => none
        | some key =>
          let res := P.rsa_sign_hash input output_size ctx.type sh
              ctx.salt_len key.pk_rsa
          if res.1 ≠ CRYPT_OK then some (tomerr res.1, output, output_size)
          else some (0, res.2.1, res.2.2)
    | .NCR_ALG_DSA =>
      match ctx.key with
      | none => none
      | some key =>
        let res := P.dsa_sign_hash input output_size key.pk_dsa
        if res.1 ≠ CRYPT_OK then some (tomerr res.1, output, output_size)
        else some (0, res.2.1, res.2.2)
    | _ => some (-EINVAL, output, output_size)

/-- Embedding of `ncr_pk_cipher_verify` from `ncr-pk.c`.  `err_in` is the value behind
the `ncr_error_t *err` out-pointer before the call; the function only
writes it after a successful primitive run, storing `0` for an accepted
signature and `NCR_VERIFICATION_FAILED` for a rejected one, while its own
return value stays `0`.  Result: `(return value, final *err)`. -/
def ncr_pk_cipher_verify (P : Prims R D) (ctx : ncr_pk_ctx R D)
    (signature : List Nat) (hash : List Nat) (err_in : Int) :
    Option (Int × Int) :=
  match ctx.algorithm with
  | none => none
  | some alg =>
    match alg.algo with
    | .NCR_ALG_RSA =>
      match ctx.sign_hash with
      | none => some (-EINVAL, err_in)
      | some sh =>
        match ctx.key with
        | none => none
        | some key =>
          let res := P.rsa_verify_hash signature hash ctx.type sh
              ctx.salt_len key.pk_rsa
          if res.1 ≠ CRYPT_OK then some (tomerr res.1, err_in)
          else if res.2 = 1 then some (0, 0)
          else some (0, NCR_VERIFICATION_FAILED)
    | .NCR_ALG_DSA =>
      match ctx.key with
      | none => none
      | some key =>
        let res := P.dsa_verify_hash signature hash key.pk_dsa
        if res.1 ≠ CRYPT_OK then some (tomerr res.1, err_in)
        else if res.2 = 1 then some (0, 0)
        else some (0, NCR_VERIFICATION_FAILED)
    | _ => some (-EINVAL, err_in)

/-!
Contracts of the external primitives.  The numeric library is out of
scope (the spec treats its encoding as an opaque canonical format
"beyond the round-trip contract"), so the properties of `rsa_export` /
`rsa_import` and `hash_memory` that the claims lean on are stated as
explicit hypotheses, never baked into the embedding.
-/

/-- The canonical-encoding contract of the RSA export/import pair: a
successful export fits its buffer, and its bytes import back to a key of
the exported type which re-exports to the very same bytes. -/
def RsaCanonical (P : Prims R D) : Prop :=
  ∀ cap ty k bytes n, P.rsa_export cap ty k = (CRYPT_OK, bytes, n) →
    n ≤ cap ∧
    ∃ k', P.rsa_import bytes = (CRYPT_OK, k') ∧ P.rsaType k' = ty ∧
      ∀ cap', n ≤ cap' → P.rsa_export cap' ty k' = (CRYPT_OK, bytes, n)

/-- The canonical-encoding contract of the DSA export/import pair. -/
def DsaCanonical (P : Prims R D) : Prop :=
  ∀ cap ty k bytes n, P.dsa_export cap ty k = (CRYPT_OK, bytes, n) →
    n ≤ cap ∧
    ∃ k', P.dsa_import bytes = (CRYPT_OK, k') ∧ P.dsaType k' = ty ∧
      ∀ cap', n ≤ cap' → P.dsa_export cap' ty k' = (CRYPT_OK, bytes, n)

/-- The contract of `hash_memory`: a successful call reports a digest
length within the destination capacity and returns exactly that many
digest bytes. -/
def HashSized (P : Prims R D) : Prop :=
  ∀ md cap msg cret dg n, P.hash_memory md cap msg = (cret, dg, n) →
    cret = CRYPT_OK → n ≤ cap ∧ dg.length = n

/-- The sizing contract of the RSA export primitive: each `(type, key)`
pair has a required encoding size; a buffer at least that large makes
export succeed reporting that size, a smaller one makes it fail with
`CRYPT_BUFFER_OVERFLOW` still reporting that size. -/
def RsaExportSized (P : Prims R D) : Prop :=
  ∀ ty k, ∃ req, ∀ cap,
    (req ≤ cap → (P.rsa_export cap ty k).1 = CRYPT_OK ∧
      (P.rsa_export cap ty k).2.2 = req) ∧
    (cap < req → (P.rsa_export cap ty k).1 = CRYPT_BUFFER_OVERFLOW ∧
      (P.rsa_export cap ty k).2.2 = req)

/-- The sizing contract of the DSA export primitive. -/
def DsaExportSized (P : Prims R D) : Prop :=
  ∀ ty k, ∃ req, ∀ cap,
    (req ≤ cap → (P.dsa_export cap ty k).1 = CRYPT_OK ∧
      (P.dsa_export cap ty k).2.2 = req) ∧
    (cap < req → (P.dsa_export cap ty k).1 = CRYPT_BUFFER_OVERFLOW ∧
      (P.dsa_export cap ty k).2.2 = req)

/-- Two RSA key structures the cipher primitives cannot tell apart. -/
def RsaOpEquiv (P : Prims R D) (a b : R) : Prop :=
  (∀ i cap oh t, P.rsa_encrypt_key i cap oh t a = P.rsa_encrypt_key i cap oh t b) ∧
  (∀ i cap oh t, P.rsa_decrypt_key i cap oh t a = P.rsa_decrypt_key i cap oh t b) ∧
  (∀ i cap t sh sl, P.rsa_sign_hash i cap t sh sl a = P.rsa_sign_hash i cap t sh sl b) ∧
  (∀ s h t sh sl, P.rsa_verify_hash s h t sh sl a = P.rsa_verify_hash s h t sh sl b)

/-- Two DSA key structures the sign/verify primitives cannot tell
apart. -/
def DsaOpEquiv (P : Prims R D) (a b : D) : Prop :=
  (∀ i cap, P.dsa_sign_hash i cap a = P.dsa_sign_hash i cap b) ∧
  (∀ s h, P.dsa_verify_hash s h a = P.dsa_verify_hash s h b)

/-- The round-trip contract of the RSA pair needed for operational
equivalence: importing a successful export yields a key the cipher
primitives treat as the original. -/
def RsaImportExportEquiv (P : Prims R D) : Prop :=
  ∀ cap ty k bytes n, P.rsa_export cap ty k = (CRYPT_OK, bytes, n) →
    ∃ k', P.rsa_import bytes = (CRYPT_OK, k') ∧ RsaOpEquiv P k' k

/-- The round-trip contract of the DSA pair needed for operational
equivalence. -/
def DsaImportExportEquiv (P : Prims R D) : Prop :=
  ∀ cap ty k bytes n, P.dsa_export cap ty k = (CRYPT_OK, bytes, n) →
    ∃ k', P.dsa_import bytes = (CRYPT_OK, k') ∧ DsaOpEquiv P k' k

theorem tomerr_neg (e : Int) : tomerr e < 0 := by
  unfold tomerr EOVERFLOW ENOMEM EINVAL
  split
  · decide
  · split <;> decide

theorem tomerr_ne_zero (e : Int) : tomerr e ≠ 0 :=
  Int.ne_of_lt (tomerr_neg e)

theorem tomerr_ne_verification_failed (e : Int) :
    tomerr e ≠ NCR_VERIFICATION_FAILED := by
  have h := tomerr_neg e
  unfold NCR_VERIFICATION_FAILED
  omega

/-!
A small concrete model of the external primitives, used to exhibit
witnesses.  Keys carry an export-type tag and one number; the canonical
encoding of a key under a requested type is the two-byte list
`[type, value]`.
-/

/-- Toy key structure standing in for both `rsa_key` and `dsa_key`. -/
structure TK where
  ty : PkType
  v : Nat
  deriving DecidableEq, Repr

/-- Byte encoding of an export-type tag. -/
def tyByte : PkType → Nat
  | .pkPrivate => 0
  | .pkPublic => 1

/-- Decoding of an export-type tag byte. -/
def tyOf (b : Nat) : PkType :=
  if b = 1 then .pkPublic else .pkPrivate

/-- Canonical toy encoding: requested type tag followed by the value. -/
def tkEnc (ty : PkType) (k : TK) : List Nat := [tyByte ty, k.v]

/-- Toy export with the libtomcrypt buffer convention: the encoding
takes two bytes; a smaller buffer overflows, reporting the requirement. -/
def tkExport (cap : Nat) (ty : PkType) (k : TK) : Int × List Nat × Nat :=
  if 2 ≤ cap then (CRYPT_OK, tkEnc ty k, 2)
  else (CRYPT_BUFFER_OVERFLOW, [], 2)

/-- Toy import: decodes exactly the two-byte encodings. -/
def tkImport (bytes : List Nat) : Int × TK :=
  match bytes with
  | [t, v] => (CRYPT_OK, ⟨tyOf t, v⟩)
  | _ => (7, ⟨.pkPrivate, 0⟩)

/-- The toy instantiation of the primitive interface. -/
def toyPrims : Prims TK TK where
  rsa_make_key := fun size e => (CRYPT_OK, ⟨.pkPrivate, size + e⟩)
  dsa_make_key := fun q p => (CRYPT_OK, ⟨.pkPrivate, 1000 * q + p⟩)
  rsa_export := tkExport
  rsa_import := tkImport
  dsa_export := tkExport
  dsa_import := tkImport
  hash_memory := fun _ cap msg =>
    if 1 ≤ cap then (CRYPT_OK, [msg.length % 256], 1)
    else (CRYPT_BUFFER_OVERFLOW, [], 1)
  rsa_encrypt_key := fun i _ _ _ k => (CRYPT_OK, i.map (· + k.v), i.length)
  rsa_decrypt_key := fun i _ _ _ k => (CRYPT_OK, i.map (· - k.v), i.length, 1)
  rsa_sign_hash := fun i _ _ _ _ k => (CRYPT_OK, k.v :: i, i.length + 1)
  rsa_verify_hash := fun s h _ _ _ k =>
    (CRYPT_OK, if s = k.v :: h then 1 else 0)
  dsa_sign_hash := fun i _ k => (CRYPT_OK, k.v :: i, i.length + 1)
  dsa_verify_hash := fun s h k => (CRYPT_OK, if s = k.v :: h then 1 else 0)
  algo_to_properties := fun a =>
    match a with
    | .NCR_ALG_NONE => none
    | x => some ⟨x⟩
  rsaType := TK.ty
  dsaType := TK.ty
  kmallocFails := false

/-- A toy decrypt variant whose primitive succeeds structurally but
reports an invalid padding through `stat = 0`. -/
def toyPrimsBadPad : Prims TK TK :=
  { toyPrims with
    rsa_decrypt_key := fun i _ _ _ _ => (CRYPT_OK, i, i.length, 0) }

/-- A fully populated toy key item. -/
def tkItem (a : ncr_algorithm_t) (v : Nat) : key_item_st TK TK :=
  { algorithm := some ⟨a⟩, pk_rsa := ⟨.pkPrivate, v⟩,
    pk_dsa := ⟨.pkPrivate, v⟩, key_id := [], key_id_size := 0 }

theorem tyOf_tyByte (ty : PkType) : tyOf (tyByte ty) = ty := by
  cases ty <;> rfl

theorem toy_rsa_canonical : RsaCanonical toyPrims := by
  intro cap ty k bytes n h
  simp only [toyPrims, tkExport] at h
  split at h
  · rename_i hc
    obtain ⟨h2, h3⟩ : tkEnc ty k = bytes ∧ 2 = n := by simpa using h
    subst h2
    subst h3
    refine ⟨hc, ⟨tyOf (tyByte ty), k.v⟩, by simp [toyPrims, tkEnc, tkImport],
      by simp [toyPrims, tyOf_tyByte], ?_⟩
    intro cap' hcap'
    simp [toyPrims, tkExport, if_pos hcap', tkEnc, tyOf_tyByte]
  · exfalso
    have := congrArg Prod.fst h
    simp [CRYPT_BUFFER_OVERFLOW, CRYPT_OK] at this

theorem toy_dsa_canonical : DsaCanonical toyPrims := by
  intro cap ty k bytes n h
  simp only [toyPrims, tkExport] at h
  split at h
  · rename_i hc
    obtain ⟨h2, h3⟩ : tkEnc ty k = bytes ∧ 2 = n := by simpa using h
    subst h2
    subst h3
    refine ⟨hc, ⟨tyOf (tyByte ty), k.v⟩, by simp [toyPrims, tkEnc, tkImport],
      by simp [toyPrims, tyOf_tyByte], ?_⟩
    intro cap' hcap'
    simp [toyPrims, tkExport, if_pos hcap', tkEnc, tyOf_tyByte]
  · exfalso
    have := congrArg Prod.fst h
    simp [CRYPT_BUFFER_OVERFLOW, CRYPT_OK] at this

theorem toy_hash_sized : HashSized toyPrims := by
  intro md cap msg cret dg n h hok
  subst hok
  simp only [toyPrims] at h
  split at h
  · rename_i hc
    obtain ⟨h2, h3⟩ : [msg.length % 256] = dg ∧ 1 = n := by simpa using h
    subst h2
    subst h3
    exact ⟨hc, rfl⟩
  · exfalso
    have := congrArg Prod.fst h
    simp [CRYPT_BUFFER_OVERFLOW, CRYPT_OK] at this

theorem toy_rsa_export_sized : RsaExportSized toyPrims := by
  intro ty k
  refine ⟨2, fun cap => ⟨fun hge => ?_, fun hlt => ?_⟩⟩
  · simp [toyPrims, tkExport, if_pos hge]
  · have hn : ¬ 2 ≤ cap := by omega
    simp [toyPrims, tkExport, if_neg hn]

theorem toy_dsa_export_sized : DsaExportSized toyPrims := by
  intro ty k
  refine ⟨2, fun cap => ⟨fun hge => ?_, fun hlt => ?_⟩⟩
  · simp [toyPrims, tkExport, if_pos hge]
  · have hn : ¬ 2 ≤ cap := by omega
    simp [toyPrims, tkExport, if_neg hn]

theorem toy_rsa_ie_equiv : RsaImportExportEquiv toyPrims := by
  intro cap ty k bytes n h
  simp only [toyPrims, tkExport] at h
  split at h
  · obtain ⟨h2, h3⟩ : tkEnc ty k = bytes ∧ 2 = n := by simpa using h
    subst h2
    exact ⟨⟨tyOf (tyByte ty), k.v⟩, by simp [toyPrims, tkEnc, tkImport],
      fun _ _ _ _ => rfl, fun _ _ _ _ => rfl, fun _ _ _ _ _ => rfl,
      fun _ _ _ _ _ => rfl⟩
  · exfalso
    have := congrArg Prod.fst h
    simp [CRYPT_BUFFER_OVERFLOW, CRYPT_OK] at this

theorem toy_dsa_ie_equiv : DsaImportExportEquiv toyPrims := by
  intro cap ty k bytes n h
  simp only [toyPrims, tkExport] at h
  split at h
  · obtain ⟨h2, h3⟩ : tkEnc ty k = bytes ∧ 2 = n := by simpa using h
    subst h2
    exact ⟨⟨tyOf (tyByte ty), k.v⟩, by simp [toyPrims, tkEnc, tkImport],
      fun _ _ => rfl, fun _ _ => rfl⟩
  · exfalso
    have := congrArg Prod.fst h
    simp [CRYPT_BUFFER_OVERFLOW, CRYPT_OK] at this

/-- A DSA-bound toy context. -/
def dsaCtx : ncr_pk_ctx TK TK :=
  { algorithm := some ⟨.NCR_ALG_DSA⟩, key := some (tkItem .NCR_ALG_DSA 3),
    sign_hash := some ⟨.NCR_ALG_SHA1⟩, oaep_hash := none, type := 0,
    salt_len := 0, init := 1 }

/-- An RSA-bound toy context. -/
def rsaCtx : ncr_pk_ctx TK TK :=
  { algorithm := some ⟨.NCR_ALG_RSA⟩, key := some (tkItem .NCR_ALG_RSA 3),
    sign_hash := some ⟨.NCR_ALG_SHA1⟩, oaep_hash := none,
    type := LTC_LTC_PKCS_1_V1_5, salt_len := 0, init := 1 }

/-- C5: On a context bound to DSA, `ncr_pk_cipher_encrypt` and
`ncr_pk_cipher_decrypt` return `-EINVAL` leaving the output buffer and
the size out-parameter untouched, for every input — and uniformly in the
primitive interface `P`, so no numeric primitive can have been invoked. -/
theorem c5_dsa_encrypt_decrypt_rejected (P : Prims R D)
    (ctx : ncr_pk_ctx R D) (alg : algo_properties_st)
    (halg : ctx.algorithm = some alg) (hdsa : alg.algo = .NCR_ALG_DSA)
    (input output : List Nat) (output_size : Nat) :
    ncr_pk_cipher_encrypt P ctx input output output_size
      = some (-EINVAL, output, output_size) ∧
    ncr_pk_cipher_decrypt P ctx input output output_size
      = some (-EINVAL, output, output_size) := by
  obtain ⟨a⟩ := alg
  have ha : a = .NCR_ALG_DSA := hdsa
  subst ha
  constructor
  · unfold ncr_pk_cipher_encrypt
    rw [halg]
  · unfold ncr_pk_cipher_decrypt
    rw [halg]

theorem c5_witness :
    ncr_pk_cipher_encrypt toyPrims dsaCtx [1] [9] 1 = some (-EINVAL, [9], 1) ∧
    ncr_pk_cipher_decrypt toyPrims dsaCtx [1] [9] 1 = some (-EINVAL, [9], 1) :=
  c5_dsa_encrypt_decrypt_rejected toyPrims dsaCtx ⟨.NCR_ALG_DSA⟩ rfl rfl [1] [9] 1

/-- C6: `ncr_pk_cipher_init` with a key whose algorithm differs from
the requested one fails with `-EINVAL` for every parameter value, and the
returned context is the zeroed one, whose `init` flag is clear. -/
theorem c6_init_algorithm_mismatch (P : Prims R D)
    (algo : algo_properties_st) (params : ncr_key_params_st)
    (key : key_item_st R D) (hne : key.algorithm ≠ some algo) :
    ncr_pk_cipher_init P algo params key = (-EINVAL, zeroCtx) ∧
    (ncr_pk_cipher_init P algo params key).2.init = 0 := by
  have h : ncr_pk_cipher_init P algo params key = (-EINVAL, zeroCtx) := by
    unfold ncr_pk_cipher_init
    rw [if_pos hne]
  exact ⟨h, by rw [h]; rfl⟩

theorem c6_witness :
    ncr_pk_cipher_init toyPrims ⟨.NCR_ALG_DSA⟩
        ⟨⟨.RSA_PKCS1_OAEP, .NCR_ALG_NONE, .NCR_ALG_NONE, 0⟩, ⟨.NCR_ALG_SHA1⟩⟩
        (tkItem .NCR_ALG_RSA 1) = (-EINVAL, zeroCtx) :=
  (c6_init_algorithm_mismatch toyPrims ⟨.NCR_ALG_DSA⟩
    ⟨⟨.RSA_PKCS1_OAEP, .NCR_ALG_NONE, .NCR_ALG_NONE, 0⟩, ⟨.NCR_ALG_SHA1⟩⟩
    (tkItem .NCR_ALG_RSA 1) (by decide)).1

/-- C3: On an RSA context, when the decrypt primitive reports
structural success (`CRYPT_OK`) but an invalid padding through its
validity out-parameter (`stat = 0`), `ncr_pk_cipher_decrypt` returns
`-EINVAL` and leaves the size out-parameter (and buffer) untouched. -/
theorem c3_decrypt_invalid_padding (P : Prims R D) (ctx : ncr_pk_ctx R D)
    (alg : algo_properties_st) (key : key_item_st R D)
    (halg : ctx.algorithm = some alg) (hrsa : alg.algo = .NCR_ALG_RSA)
    (hkey : ctx.key = some key)
    (input output : List Nat) (output_size : Nat)
    (out' : List Nat) (osize' : Nat)
    (hprim : P.rsa_decrypt_key input output_size ctx.oaep_hash ctx.type
        key.pk_rsa = (CRYPT_OK, out', osize', 0)) :
    ncr_pk_cipher_decrypt P ctx input output output_size
      = some (-EINVAL, output, output_size) := by
  obtain ⟨a⟩ := alg
  have ha : a = .NCR_ALG_RSA := hrsa
  subst ha
  unfold ncr_pk_cipher_decrypt
  rw [halg]
  dsimp only
  rw [hkey]
  dsimp only
  rw [hprim]
  simp [CRYPT_OK]

theorem c3_witness :
    ncr_pk_cipher_decrypt toyPrimsBadPad rsaCtx [4] [9] 1
      = some (-EINVAL, [9], 1) :=
  c3_decrypt_invalid_padding toyPrimsBadPad rsaCtx ⟨.NCR_ALG_RSA⟩
    (tkItem .NCR_ALG_RSA 3) rfl rfl rfl [4] [9] 1 [4] 1 rfl

/-- C9: `ncr_pk_pack` reads `*packed_size` before its NULL test on
`packed_size`: a call with a NULL size pointer crashes (it can never
reach the `-EINVAL` guard), every call with a non-NULL size pointer (on a
key with its algorithm set) returns a value, and the whole function is
extensionally equal to the variant whose guard drops the
`packed_size == NULL` test — that half of the guard is dead code. -/
theorem c9_pack_size_guard_dead (P : Prims R D) (key : key_item_st R D)
    (packed_null : Bool) (alg : algo_properties_st)
    (halg : key.algorithm = some alg) :
    ncr_pk_pack P key packed_null none = none ∧
    (∀ sz, (ncr_pk_pack P key packed_null (some sz)).isSome = true) ∧
    (∀ ps, ncr_pk_pack P key packed_null ps
        = ncr_pk_pack_noSizeGuard P key packed_null ps) := by
  obtain ⟨a⟩ := alg
  refine ⟨rfl, ?_, ?_⟩
  · intro sz
    unfold ncr_pk_pack
    rw [halg]
    cases packed_null <;> cases a <;> simp <;> try (split <;> rfl)
  · intro ps
    cases ps
    · rfl
    · unfold ncr_pk_pack ncr_pk_pack_noSizeGuard
      simp only [Option.isNone_some, Bool.or_false]

theorem c9_witness :
    ncr_pk_pack toyPrims (tkItem .NCR_ALG_RSA 5) false none = none ∧
    (∀ sz, (ncr_pk_pack toyPrims (tkItem .NCR_ALG_RSA 5) false
        (some sz)).isSome = true) ∧
    (∀ ps, ncr_pk_pack toyPrims (tkItem .NCR_ALG_RSA 5) false ps
        = ncr_pk_pack_noSizeGuard toyPrims (tkItem .NCR_ALG_RSA 5) false ps) :=
  c9_pack_size_guard_dead toyPrims (tkItem .NCR_ALG_RSA 5) false
    ⟨.NCR_ALG_RSA⟩ rfl

/-- C2: `ncr_pk_cipher_verify` separates its outcomes: whatever
happens, its return value is never `NCR_VERIFICATION_FAILED`; and on an
RSA (with resolved sign hash) or DSA context whose verify primitive runs
successfully, the function returns `0` and stores the three-way outcome
in the `err` out-parameter: `0` for an accepted signature (`stat = 1`),
`NCR_VERIFICATION_FAILED` for a rejected one. -/
theorem c2_verify_threeway (P : Prims R D) (ctx : ncr_pk_ctx R D)
    (signature hash : List Nat) (err_in : Int) :
    (∀ ret errOut, ncr_pk_cipher_verify P ctx signature hash err_in
        = some (ret, errOut) → ret ≠ NCR_VERIFICATION_FAILED) ∧
    (∀ alg key stat, ctx.algorithm = some alg → ctx.key = some key →
      ((alg.algo = .NCR_ALG_RSA ∧ ∃ sh, ctx.sign_hash = some sh ∧
          P.rsa_verify_hash signature hash ctx.type sh ctx.salt_len
            key.pk_rsa = (CRYPT_OK, stat)) ∨
       (alg.algo = .NCR_ALG_DSA ∧
          P.dsa_verify_hash signature hash key.pk_dsa = (CRYPT_OK, stat))) →
      ncr_pk_cipher_verify P ctx signature hash err_in
        = some (0, if stat = 1 then 0 else NCR_VERIFICATION_FAILED)) := by
  constructor
  · intro ret errOut h
    unfold ncr_pk_cipher_verify at h
    rcases halgo : ctx.algorithm with _ | alg
    · rw [halgo] at h
      exact absurd h (by simp)
    · rw [halgo] at h
      obtain ⟨a⟩ := alg
      cases a <;> dsimp only at h
      case NCR_ALG_NONE =>
        injection h with h'
        injection h' with ha hb
        subst ha
        decide
      case NCR_ALG_SHA1 =>
        injection h with h'
        injection h' with ha hb
        subst ha
        decide
      case NCR_ALG_RSA =>
        rcases hsh : ctx.sign_hash with _ | sh
        · rw [hsh] at h
          dsimp only at h
          injection h with h'
          injection h' with ha hb
          subst ha
          decide
        · rw [hsh] at h
          dsimp only at h
          rcases hk : ctx.key with _ | key
          · rw [hk] at h
            exact absurd h (by simp)
          · rw [hk] at h
            dsimp only at h
            split at h
            · injection h with h'
              injection h' with ha hb
              subst ha
              exact tomerr_ne_verification_failed _
            · split at h
              · injection h with h'
                injection h' with ha hb
                subst ha
                decide
              · injection h with h'
                injection h' with ha hb
                subst ha
                decide
      case NCR_ALG_DSA =>
        rcases hk : ctx.key with _ | key
        · rw [hk] at h
          exact absurd h (by simp)
        · rw [hk] at h
          dsimp only at h
          split at h
          · injection h with h'
            injection h' with ha hb
            subst ha
            exact tomerr_ne_verification_failed _
          · split at h
            · injection h with h'
              injection h' with ha hb
              subst ha
              decide
            · injection h with h'
              injection h' with ha hb
              subst ha
              decide
  · intro alg key stat halg hkey hd
    obtain ⟨a⟩ := alg
    rcases hd with ⟨hrsa, sh, hsh, hprim⟩ | ⟨hdsa, hprim⟩
    · have ha : a = .NCR_ALG_RSA := hrsa
      subst ha
      unfold ncr_pk_cipher_verify
      rw [halg]
      dsimp only
      rw [hsh]
      dsimp only
      rw [hkey]
      dsimp only
      rw [hprim]
      by_cases hstat : stat = 1 <;> simp [hstat, CRYPT_OK]
    · have ha : a = .NCR_ALG_DSA := hdsa
      subst ha
      unfold ncr_pk_cipher_verify
      rw [halg]
      dsimp only
      rw [hkey]
      dsimp only
      rw [hprim]
      by_cases hstat : stat = 1 <;> simp [hstat, CRYPT_OK]

theorem c2_witness :
    ncr_pk_cipher_verify toyPrims rsaCtx [0] [1] 99
      = some (0, NCR_VERIFICATION_FAILED) := by
  have h := (c2_verify_threeway toyPrims rsaCtx [0] [1] 99).2
    ⟨.NCR_ALG_RSA⟩ (tkItem .NCR_ALG_RSA 3) 0 rfl rfl
    (Or.inl ⟨rfl, ⟨.NCR_ALG_SHA1⟩, rfl, by decide⟩)
  simpa using h

/-- The generation request after `keygen_handler`'s DSA defaulting: zero
bit sizes replaced by 160/1024, every other field untouched. -/
def dsaDefaulted (params : ncr_key_generate_params_st) :
    ncr_key_generate_params_st :=
  { params with dsa := {
      q_bits := if params.dsa.q_bits = 0 then 160 else params.dsa.q_bits,
      p_bits := if params.dsa.p_bits = 0 then 1024 else params.dsa.p_bits } }

/-- C10: DSA generation writes the 160/1024 defaults back into the
caller's request structure in place when the corresponding field is 0 and
leaves every other field of the request unchanged — stated for the worker
body and propagated through `ncr_pk_generate`'s returned request. -/
theorem c10_dsa_defaults_written_back (P : Prims R D)
    (algo : algo_properties_st) (hdsa : algo.algo = .NCR_ALG_DSA)
    (params : ncr_key_generate_params_st) (priv pub : key_item_st R D) :
    (keygen_handler P algo params priv).2.2 = dsaDefaulted params ∧
    (∀ r, ncr_pk_generate P algo params priv pub = some r →
      r.2.2.2 = dsaDefaulted params) := by
  obtain ⟨a⟩ := algo
  have ha : a = .NCR_ALG_DSA := hdsa
  subst ha
  have hhandler : ∀ pr : key_item_st R D,
      (keygen_handler P ⟨.NCR_ALG_DSA⟩ params pr).2.2 = dsaDefaulted params := by
    intro pr
    unfold keygen_handler dsaDefaulted
    dsimp only
    by_cases hq : params.dsa.q_bits = 0 <;> by_cases hp : params.dsa.p_bits = 0 <;>
      simp only [hq, hp, ite_true, ite_false, eq_self_iff_true, if_true, if_false] <;>
      (split <;> rfl)
  refine ⟨hhandler priv, ?_⟩
  intro r hgen
  unfold ncr_pk_generate at hgen
  dsimp only at hgen
  split at hgen
  · injection hgen with h
    subst h
    exact hhandler _
  · split at hgen
    · exact absurd hgen (by simp)
    · rename_i ret pq heq
      split at hgen <;>
      · injection hgen with h
        subst h
        exact hhandler _

theorem c10_witness :
    (keygen_handler toyPrims ⟨.NCR_ALG_DSA⟩
        ⟨.NCR_ALG_DSA, ⟨0, 0⟩, ⟨0, 2048⟩⟩ (tkItem .NCR_ALG_DSA 0)).2.2
      = dsaDefaulted ⟨.NCR_ALG_DSA, ⟨0, 0⟩, ⟨0, 2048⟩⟩ :=
  (c10_dsa_defaults_written_back toyPrims ⟨.NCR_ALG_DSA⟩ rfl
    ⟨.NCR_ALG_DSA, ⟨0, 0⟩, ⟨0, 2048⟩⟩ (tkItem .NCR_ALG_DSA 0)
    (tkItem .NCR_ALG_DSA 0)).1

/-- Two generation runs whose worker bodies agree on status and produced
private item also agree on everything downstream of the worker; only the
returned request can differ. -/
theorem generate_congr_aux (P : Prims R D) (algo : algo_properties_st)
    (p1 p2 : ncr_key_generate_params_st) (priv pub : key_item_st R D)
    (h1 : (keygen_handler P algo p1 { priv with algorithm := some algo }).1
        = (keygen_handler P algo p2 { priv with algorithm := some algo }).1)
    (h2 : (keygen_handler P algo p1 { priv with algorithm := some algo }).2.1
        = (keygen_handler P algo p2 { priv with algorithm := some algo }).2.1) :
    (ncr_pk_generate P algo p1 priv pub).map (fun r => (r.1, r.2.1, r.2.2.1))
      = (ncr_pk_generate P algo p2 priv pub).map
          (fun r => (r.1, r.2.1, r.2.2.1)) := by
  unfold ncr_pk_generate
  dsimp only
  rw [h1, h2]
  by_cases hlt :
      (keygen_handler P algo p2 { priv with algorithm := some algo }).1 < 0
  · simp only [if_pos hlt]
    rfl
  · simp only [if_neg hlt]
    cases hM : ncr_pk_make_public_and_id P
        ((keygen_handler P algo p2 { priv with algorithm := some algo }).2.1)
        { pub with algorithm := some algo } with
    | none => rfl
    | some val =>
      obtain ⟨ret, p, q⟩ := val
      by_cases hr : ret < 0
      · simp only [if_pos hr]
        rfl
      · simp only [if_neg hr]
        rfl

/-- C7: Generation defaults: an RSA request with exponent 0 produces
the same status, private item and public item as the identical request
with exponent 65537 (the request structure itself is not written on the
RSA path, so only the three outputs are compared); a DSA request with
`q_bits = 0, p_bits = 0` runs identically — including the written-back
request — to one with `q_bits = 160, p_bits = 1024`. -/
theorem c7_generation_defaults (P : Prims R D) (algo : algo_properties_st)
    (params : ncr_key_generate_params_st) (priv pub : key_item_st R D) :
    (algo.algo = .NCR_ALG_RSA →
      (ncr_pk_generate P algo { params with rsa := { params.rsa with e := 0 } }
          priv pub).map (fun r => (r.1, r.2.1, r.2.2.1)) =
      (ncr_pk_generate P algo
          { params with rsa := { params.rsa with e := 65537 } } priv pub).map
        (fun r => (r.1, r.2.1, r.2.2.1))) ∧
    (algo.algo = .NCR_ALG_DSA →
      ncr_pk_generate P algo { params with dsa := ⟨0, 0⟩ } priv pub =
      ncr_pk_generate P algo { params with dsa := ⟨160, 1024⟩ } priv pub) := by
  obtain ⟨a⟩ := algo
  constructor
  · intro ha
    have ha' : a = .NCR_ALG_RSA := ha
    subst ha'
    apply generate_congr_aux
    · unfold keygen_handler
      dsimp only
      norm_num
      split <;> rfl
    · unfold keygen_handler
      dsimp only
      norm_num
      split <;> rfl
  · intro ha
    have ha' : a = .NCR_ALG_DSA := ha
    subst ha'
    have hkh : keygen_handler P ⟨.NCR_ALG_DSA⟩ { params with dsa := ⟨0, 0⟩ }
        = keygen_handler P ⟨.NCR_ALG_DSA⟩
            { params with dsa := ⟨160, 1024⟩ } := by
      funext pr
      unfold keygen_handler
      dsimp only
      norm_num
    unfold ncr_pk_generate
    rw [hkh]

theorem c7_witness :
    (ncr_pk_generate toyPrims ⟨.NCR_ALG_RSA⟩ ⟨.NCR_ALG_RSA, ⟨16, 0⟩, ⟨0, 0⟩⟩
        (tkItem .NCR_ALG_RSA 0) (tkItem .NCR_ALG_RSA 0)).map
      (fun r => (r.1, r.2.1, r.2.2.1)) =
    (ncr_pk_generate toyPrims ⟨.NCR_ALG_RSA⟩
        ⟨.NCR_ALG_RSA, ⟨16, 65537⟩, ⟨0, 0⟩⟩
        (tkItem .NCR_ALG_RSA 0) (tkItem .NCR_ALG_RSA 0)).map
      (fun r => (r.1, r.2.1, r.2.2.1)) :=
  (c7_generation_defaults toyPrims ⟨.NCR_ALG_RSA⟩
    ⟨.NCR_ALG_RSA, ⟨16, 9⟩, ⟨0, 0⟩⟩
    (tkItem .NCR_ALG_RSA 0) (tkItem .NCR_ALG_RSA 0)).1 rfl

/-- On a non-NULL buffer and size pointer, `ncr_pk_pack` on an RSA key is
the RSA export call with the key's stored export type. -/
theorem ncr_pk_pack_rsa (P : Prims R D) (key : key_item_st R D)
    (alg : algo_properties_st) (halg : key.algorithm = some alg)
    (ha : alg.algo = .NCR_ALG_RSA) (sz : Nat) :
    ncr_pk_pack P key false (some sz) =
      (let res := P.rsa_export sz (P.rsaType key.pk_rsa) key.pk_rsa
       if res.1 ≠ CRYPT_OK then some (tomerr res.1, res.2.2, res.2.1)
       else some (0, res.2.2, res.2.1)) := by
  obtain ⟨a⟩ := alg
  have ha' : a = .NCR_ALG_RSA := ha
  subst ha'
  unfold ncr_pk_pack
  rw [halg]
  rfl

/-- On a non-NULL buffer and size pointer, `ncr_pk_pack` on a DSA key is
the DSA export call with the key's stored export type. -/
theorem ncr_pk_pack_dsa (P : Prims R D) (key : key_item_st R D)
    (alg : algo_properties_st) (halg : key.algorithm = some alg)
    (ha : alg.algo = .NCR_ALG_DSA) (sz : Nat) :
    ncr_pk_pack P key false (some sz) =
      (let res := P.dsa_export sz (P.dsaType key.pk_dsa) key.pk_dsa
       if res.1 ≠ CRYPT_OK then some (tomerr res.1, res.2.2, res.2.1)
       else some (0, res.2.2, res.2.1)) := by
  obtain ⟨a⟩ := alg
  have ha' : a = .NCR_ALG_DSA := ha
  subst ha'
  unfold ncr_pk_pack
  rw [halg]
  rfl

/-- C4: Under the export primitives' sizing contract, every RSA or
DSA key has a required capacity `req`: `ncr_pk_pack` into any smaller
buffer fails with `-EOVERFLOW` and stores `req` through the size pointer,
and a retry with a buffer of exactly the reported size succeeds. -/
theorem c4_pack_overflow_retry (P : Prims R D)
    (hR : RsaExportSized P) (hD : DsaExportSized P)
    (key : key_item_st R D) (alg : algo_properties_st)
    (halg : key.algorithm = some alg)
    (hfam : alg.algo = .NCR_ALG_RSA ∨ alg.algo = .NCR_ALG_DSA) :
    ∃ req : Nat,
      (∀ cap, cap < req → ∃ out,
        ncr_pk_pack P key false (some cap) = some (-EOVERFLOW, req, out)) ∧
      (∃ out, ncr_pk_pack P key false (some req) = some (0, req, out)) := by
  obtain ⟨a⟩ := alg
  rcases hfam with ha | ha
  · have ha' : a = .NCR_ALG_RSA := ha
    subst ha'
    obtain ⟨req, hreq⟩ := hR (P.rsaType key.pk_rsa) key.pk_rsa
    refine ⟨req, ?_, ?_⟩
    · intro cap hcap
      obtain ⟨h1, h2⟩ := (hreq cap).2 hcap
      refine ⟨(P.rsa_export cap (P.rsaType key.pk_rsa) key.pk_rsa).2.1, ?_⟩
      rw [ncr_pk_pack_rsa P key ⟨.NCR_ALG_RSA⟩ halg rfl]
      dsimp only
      rw [h1, h2]
      norm_num [tomerr, CRYPT_BUFFER_OVERFLOW, CRYPT_OK, CRYPT_MEM, EOVERFLOW]
    · obtain ⟨h1, h2⟩ := (hreq req).1 le_rfl
      refine ⟨(P.rsa_export req (P.rsaType key.pk_rsa) key.pk_rsa).2.1, ?_⟩
      rw [ncr_pk_pack_rsa P key ⟨.NCR_ALG_RSA⟩ halg rfl]
      dsimp only
      rw [h1, h2]
      simp
  · have ha' : a = .NCR_ALG_DSA := ha
    subst ha'
    obtain ⟨req, hreq⟩ := hD (P.dsaType key.pk_dsa) key.pk_dsa
    refine ⟨req, ?_, ?_⟩
    · intro cap hcap
      obtain ⟨h1, h2⟩ := (hreq cap).2 hcap
      refine ⟨(P.dsa_export cap (P.dsaType key.pk_dsa) key.pk_dsa).2.1, ?_⟩
      rw [ncr_pk_pack_dsa P key ⟨.NCR_ALG_DSA⟩ halg rfl]
      dsimp only
      rw [h1, h2]
      norm_num [tomerr, CRYPT_BUFFER_OVERFLOW, CRYPT_OK, CRYPT_MEM, EOVERFLOW]
    · obtain ⟨h1, h2⟩ := (hreq req).1 le_rfl
      refine ⟨(P.dsa_export req (P.dsaType key.pk_dsa) key.pk_dsa).2.1, ?_⟩
      rw [ncr_pk_pack_dsa P key ⟨.NCR_ALG_DSA⟩ halg rfl]
      dsimp only
      rw [h1, h2]
      simp

theorem c4_witness :
    ∃ req : Nat,
      (∀ cap, cap < req → ∃ out,
        ncr_pk_pack toyPrims (tkItem .NCR_ALG_RSA 5) false (some cap)
          = some (-EOVERFLOW, req, out)) ∧
      (∃ out, ncr_pk_pack toyPrims (tkItem .NCR_ALG_RSA 5) false (some req)
          = some (0, req, out)) :=
  c4_pack_overflow_retry toyPrims toy_rsa_export_sized toy_dsa_export_sized
    (tkItem .NCR_ALG_RSA 5) ⟨.NCR_ALG_RSA⟩ rfl (Or.inl rfl)

theorem eq_triple_of_fst {α β : Type} {x : Int × α × β} (h : x.1 = CRYPT_OK) :
    x = (CRYPT_OK, x.2.1, x.2.2) := by
  rw [← h]

theorem eq_pair_of_fst {α : Type} {x : Int × α} (h : x.1 = CRYPT_OK) :
    x = (CRYPT_OK, x.2) := by
  rw [← h]

/-- The generation worker never changes the private item's algorithm
field. -/
theorem keygen_handler_algorithm (P : Prims R D) (algo : algo_properties_st)
    (params : ncr_key_generate_params_st) (pr : key_item_st R D) :
    (keygen_handler P algo params pr).2.1.algorithm = pr.algorithm := by
  obtain ⟨a⟩ := algo
  unfold keygen_handler
  cases a <;> dsimp only <;> repeat' split
  all_goals rfl

/-- Inversion of a zero-returning `ncr_pk_generate`: the derivation step
ran on the worker's private item and the algorithm-tagged public item and
returned the final items with a non-negative status. -/
theorem generate_ok_inv (P : Prims R D) (algo : algo_properties_st)
    (params params' : ncr_key_generate_params_st)
    (priv pub priv' pub' : key_item_st R D)
    (h : ncr_pk_generate P algo params priv pub
        = some (0, priv', pub', params')) :
    ∃ ret2, ¬ ret2 < 0 ∧
      ncr_pk_make_public_and_id P
          (keygen_handler P algo params
            { priv with algorithm := some algo }).2.1
          { pub with algorithm := some algo }
        = some (ret2, priv', pub') := by
  unfold ncr_pk_generate at h
  dsimp only at h
  split at h
  · rename_i hlt
    injection h with h'
    have h0 := congrArg Prod.fst h'
    dsimp only at h0
    rw [h0] at hlt
    exact absurd hlt (by omega)
  · split at h
    · exact absurd h (by simp)
    · rename_i ret p q heq
      split at h
      · rename_i hr
        injection h with h'
        have h0 := congrArg Prod.fst h'
        dsimp only at h0
        rw [h0] at hr
        exact absurd hr (by omega)
      · rename_i hr
        injection h with h'
        have hp := congrArg (fun t => t.2.1) h'
        have hq := congrArg (fun t => t.2.2.1) h'
        dsimp only at hp hq
        rw [hp, hq] at heq
        exact ⟨ret, hr, heq⟩

/-- Inversion of a successful `ncr_pk_make_public_and_id` on an RSA
private item: it exported the public component, re-imported it, hashed
the exported bytes, and wrote identifier and digest length into both
items (the public item receiving the first `key_id_size` bytes by
`memcpy`). -/
theorem make_public_rsa_inv (P : Prims R D)
    (privH pubH p2 q2 : key_item_st R D) (alg : algo_properties_st)
    (halg : privH.algorithm = some alg) (ha : alg.algo = .NCR_ALG_RSA)
    (ret2 : Int) (hret2 : ¬ ret2 < 0)
    (h : ncr_pk_make_public_and_id P privH pubH = some (ret2, p2, q2)) :
    ∃ tmp msz rk dg dlen,
      P.rsa_export KEY_DATA_MAX_SIZE .pkPublic privH.pk_rsa
        = (CRYPT_OK, tmp, msz) ∧
      P.rsa_import tmp = (CRYPT_OK, rk) ∧
      P.hash_memory (P.algo_to_properties .NCR_ALG_SHA1) MAX_KEY_ID_SIZE tmp
        = (CRYPT_OK, dg, dlen) ∧
      p2 = { privH with key_id := dg, key_id_size := dlen } ∧
      q2 = { pubH with
        pk_rsa := rk, key_id := dg.take dlen, key_id_size := dlen } := by
  obtain ⟨a⟩ := alg
  have ha' : a = .NCR_ALG_RSA := ha
  subst ha'
  unfold ncr_pk_make_public_and_id at h
  split at h
  · injection h with h'
    have h0 := congrArg Prod.fst h'
    dsimp only at h0
    rw [← h0] at hret2
    exact absurd (by norm_num [ENOMEM]) hret2
  · rw [halg] at h
    dsimp only at h
    split at h
    · injection h with h'
      have h0 := congrArg Prod.fst h'
      dsimp only at h0
      rw [← h0] at hret2
      exact absurd (tomerr_neg _) hret2
    · rename_i hcret
      split at h
      · injection h with h'
        have h0 := congrArg Prod.fst h'
        dsimp only at h0
        rw [← h0] at hret2
        exact absurd (tomerr_neg _) hret2
      · rename_i hcret2
        unfold hashAndCopyId at h
        dsimp only at h
        split at h
        · injection h with h'
          have h0 := congrArg Prod.fst h'
          dsimp only at h0
          rw [← h0] at hret2
          exact absurd (tomerr_neg _) hret2
        · rename_i hcret3
          injection h with h'
          have hp := congrArg (fun t => t.2.1) h'
          have hq := congrArg (fun t => t.2.2) h'
          dsimp only at hp hq
          exact ⟨_, _, _, _, _,
            eq_triple_of_fst (not_not.mp hcret),
            eq_pair_of_fst (not_not.mp hcret2),
            eq_triple_of_fst (not_not.mp hcret3),
            hp.symm, hq.symm⟩

/-- Inversion of a successful `ncr_pk_make_public_and_id` on a DSA
private item. -/
theorem make_public_dsa_inv (P : Prims R D)
    (privH pubH p2 q2 : key_item_st R D) (alg : algo_properties_st)
    (halg : privH.algorithm = some alg) (ha : alg.algo = .NCR_ALG_DSA)
    (ret2 : Int) (hret2 : ¬ ret2 < 0)
    (h : ncr_pk_make_public_and_id P privH pubH = some (ret2, p2, q2)) :
    ∃ tmp msz dk dg dlen,
      P.dsa_export KEY_DATA_MAX_SIZE .pkPublic privH.pk_dsa
        = (CRYPT_OK, tmp, msz) ∧
      P.dsa_import tmp = (CRYPT_OK, dk) ∧
      P.hash_memory (P.algo_to_properties .NCR_ALG_SHA1) MAX_KEY_ID_SIZE tmp
        = (CRYPT_OK, dg, dlen) ∧
      p2 = { privH with key_id := dg, key_id_size := dlen } ∧
      q2 = { pubH with
        pk_dsa := dk, key_id := dg.take dlen, key_id_size := dlen } := by
  obtain ⟨a⟩ := alg
  have ha' : a = .NCR_ALG_DSA := ha
  subst ha'
  unfold ncr_pk_make_public_and_id at h
  split at h
  · injection h with h'
    have h0 := congrArg Prod.fst h'
    dsimp only at h0
    rw [← h0] at hret2
    exact absurd (by norm_num [ENOMEM]) hret2
  · rw [halg] at h
    dsimp only at h
    split at h
    · injection h with h'
      have h0 := congrArg Prod.fst h'
      dsimp only at h0
      rw [← h0] at hret2
      exact absurd (tomerr_neg _) hret2
    · rename_i hcret
      split at h
      · injection h with h'
        have h0 := congrArg Prod.fst h'
        dsimp only at h0
        rw [← h0] at hret2
        exact absurd (tomerr_neg _) hret2
      · rename_i hcret2
        unfold hashAndCopyId at h
        dsimp only at h
        split at h
        · injection h with h'
          have h0 := congrArg Prod.fst h'
          dsimp only at h0
          rw [← h0] at hret2
          exact absurd (tomerr_neg _) hret2
        · rename_i hcret3
          injection h with h'
          have hp := congrArg (fun t => t.2.1) h'
          have hq := congrArg (fun t => t.2.2) h'
          dsimp only at hp hq
          exact ⟨_, _, _, _, _,
            eq_triple_of_fst (not_not.mp hcret),
            eq_pair_of_fst (not_not.mp hcret2),
            eq_triple_of_fst (not_not.mp hcret3),
            hp.symm, hq.symm⟩

/-- C1: After a generation call that returns 0, the private and
public items carry the same key identifier of the same length, the
length is bounded by `MAX_KEY_ID_SIZE`, and the identifier is exactly
the SHA-1-registry hash of the bytes `ncr_pk_pack` produces for the
generated public item — stated under the canonical-encoding contract of
the export/import primitives and the sizing contract of `hash_memory`. -/
theorem c1_generate_key_id (P : Prims R D)
    (hcanR : RsaCanonical P) (hcanD : DsaCanonical P) (hhash : HashSized P)
    (algo : algo_properties_st) (params params' : ncr_key_generate_params_st)
    (priv pub priv' pub' : key_item_st R D)
    (hgen : ncr_pk_generate P algo params priv pub
        = some (0, priv', pub', params')) :
    priv'.key_id = pub'.key_id ∧
    priv'.key_id_size = pub'.key_id_size ∧
    priv'.key_id_size ≤ MAX_KEY_ID_SIZE ∧
    ∃ bytes req dn,
      ncr_pk_pack P pub' false (some KEY_DATA_MAX_SIZE)
        = some (0, req, bytes) ∧
      P.hash_memory (P.algo_to_properties .NCR_ALG_SHA1) MAX_KEY_ID_SIZE bytes
        = (CRYPT_OK, priv'.key_id, dn) := by
  obtain ⟨a⟩ := algo
  obtain ⟨ret2, hret2, hmp⟩ :=
    generate_ok_inv P ⟨a⟩ params params' priv pub priv' pub' hgen
  have halgH : (keygen_handler P ⟨a⟩ params
      { priv with algorithm := some ⟨a⟩ }).2.1.algorithm = some ⟨a⟩ :=
    keygen_handler_algorithm P ⟨a⟩ params { priv with algorithm := some ⟨a⟩ }
  cases a
  case NCR_ALG_NONE =>
    exfalso
    unfold ncr_pk_make_public_and_id at hmp
    split at hmp
    · injection hmp with h'
      have h0 := congrArg Prod.fst h'
      dsimp only at h0
      rw [← h0] at hret2
      exact hret2 (by norm_num [ENOMEM])
    · rw [halgH] at hmp
      dsimp only at hmp
      injection hmp with h'
      have h0 := congrArg Prod.fst h'
      dsimp only at h0
      rw [← h0] at hret2
      exact hret2 (by norm_num [EINVAL])
  case NCR_ALG_SHA1 =>
    exfalso
    unfold ncr_pk_make_public_and_id at hmp
    split at hmp
    · injection hmp with h'
      have h0 := congrArg Prod.fst h'
      dsimp only at h0
      rw [← h0] at hret2
      exact hret2 (by norm_num [ENOMEM])
    · rw [halgH] at hmp
      dsimp only at hmp
      injection hmp with h'
      have h0 := congrArg Prod.fst h'
      dsimp only at h0
      rw [← h0] at hret2
      exact hret2 (by norm_num [EINVAL])
  case NCR_ALG_RSA =>
    obtain ⟨tmp, msz, rk, dg, dlen, hexp, himp, hhmem, hp2, hq2⟩ :=
      make_public_rsa_inv P _ _ priv' pub' ⟨.NCR_ALG_RSA⟩ halgH rfl
        ret2 hret2 hmp
    obtain ⟨hmsz, k'', himp', hty, hreexp⟩ := hcanR _ _ _ _ _ hexp
    have hk : rk = k'' := by
      rw [himp] at himp'
      exact congrArg Prod.snd himp'
    subst hk
    obtain ⟨hdlen, hlen⟩ := hhash _ _ _ _ _ _ hhmem rfl
    have htake : dg.take dlen = dg := by
      rw [← hlen]
      exact List.take_length dg
    subst hp2
    subst hq2
    refine ⟨htake.symm, rfl, hdlen, tmp, msz, dlen, ?_, hhmem⟩
    rw [ncr_pk_pack_rsa P _ ⟨.NCR_ALG_RSA⟩ rfl rfl]
    dsimp only
    rw [hty, hreexp KEY_DATA_MAX_SIZE hmsz]
    simp [CRYPT_OK]
  case NCR_ALG_DSA =>
    obtain ⟨tmp, msz, dk, dg, dlen, hexp, himp, hhmem, hp2, hq2⟩ :=
      make_public_dsa_inv P _ _ priv' pub' ⟨.NCR_ALG_DSA⟩ halgH rfl
        ret2 hret2 hmp
    obtain ⟨hmsz, k'', himp', hty, hreexp⟩ := hcanD _ _ _ _ _ hexp
    have hk : dk = k'' := by
      rw [himp] at himp'
      exact congrArg Prod.snd himp'
    subst hk
    obtain ⟨hdlen, hlen⟩ := hhash _ _ _ _ _ _ hhmem rfl
    have htake : dg.take dlen = dg := by
      rw [← hlen]
      exact List.take_length dg
    subst hp2
    subst hq2
    refine ⟨htake.symm, rfl, hdlen, tmp, msz, dlen, ?_, hhmem⟩
    rw [ncr_pk_pack_dsa P _ ⟨.NCR_ALG_DSA⟩ rfl rfl]
    dsimp only
    rw [hty, hreexp KEY_DATA_MAX_SIZE hmsz]
    simp [CRYPT_OK]

/-- The private item the toy RSA generation produces. -/
def cPriv : key_item_st TK TK :=
  { algorithm := some ⟨.NCR_ALG_RSA⟩, pk_rsa := ⟨.pkPrivate, 5⟩,
    pk_dsa := ⟨.pkPrivate, 0⟩, key_id := [2], key_id_size := 1 }

/-- The public item the toy RSA generation produces. -/
def cPub : key_item_st TK TK :=
  { algorithm := some ⟨.NCR_ALG_RSA⟩, pk_rsa := ⟨.pkPublic, 5⟩,
    pk_dsa := ⟨.pkPrivate, 0⟩, key_id := [2], key_id_size := 1 }

theorem c1_witness :
    cPriv.key_id = cPub.key_id ∧
    cPriv.key_id_size = cPub.key_id_size ∧
    cPriv.key_id_size ≤ MAX_KEY_ID_SIZE ∧
    ∃ bytes req dn,
      ncr_pk_pack toyPrims cPub false (some KEY_DATA_MAX_SIZE)
        = some (0, req, bytes) ∧
      toyPrims.hash_memory (toyPrims.algo_to_properties .NCR_ALG_SHA1)
          MAX_KEY_ID_SIZE bytes = (CRYPT_OK, cPriv.key_id, dn) :=
  c1_generate_key_id toyPrims toy_rsa_canonical toy_dsa_canonical
    toy_hash_sized ⟨.NCR_ALG_RSA⟩ ⟨.NCR_ALG_RSA, ⟨16, 3⟩, ⟨0, 0⟩⟩
    ⟨.NCR_ALG_RSA, ⟨16, 3⟩, ⟨0, 0⟩⟩ (tkItem .NCR_ALG_RSA 0)
    (tkItem .NCR_ALG_RSA 0) cPriv cPub rfl

/-- A zero-returning `ncr_pk_pack` on an RSA key is a successful export
of exactly the reported bytes and size. -/
theorem pack_rsa_ok_export (P : Prims R D) (k : key_item_st R D)
    (alg : algo_properties_st) (halg : k.algorithm = some alg)
    (ha : alg.algo = .NCR_ALG_RSA) (cap n : Nat) (bytes : List Nat)
    (h : ncr_pk_pack P k false (some cap) = some (0, n, bytes)) :
    P.rsa_export cap (P.rsaType k.pk_rsa) k.pk_rsa = (CRYPT_OK, bytes, n) := by
  rw [ncr_pk_pack_rsa P k alg halg ha] at h
  dsimp only at h
  split at h
  · injection h with h'
    exact absurd (congrArg Prod.fst h') (tomerr_ne_zero _)
  · rename_i hcond
    injection h with h'
    have h2 := congrArg (fun t => t.2.1) h'
    have h3 := congrArg (fun t => t.2.2) h'
    dsimp only at h2 h3
    calc P.rsa_export cap (P.rsaType k.pk_rsa) k.pk_rsa
        = (CRYPT_OK, (P.rsa_export cap (P.rsaType k.pk_rsa) k.pk_rsa).2.1,
           (P.rsa_export cap (P.rsaType k.pk_rsa) k.pk_rsa).2.2) :=
          eq_triple_of_fst (not_not.mp hcond)
      _ = (CRYPT_OK, bytes, n) := by rw [h2, h3]

/-- A zero-returning `ncr_pk_pack` on a DSA key is a successful export
of exactly the reported bytes and size. -/
theorem pack_dsa_ok_export (P : Prims R D) (k : key_item_st R D)
    (alg : algo_properties_st) (halg : k.algorithm = some alg)
    (ha : alg.algo = .NCR_ALG_DSA) (cap n : Nat) (bytes : List Nat)
    (h : ncr_pk_pack P k false (some cap) = some (0, n, bytes)) :
    P.dsa_export cap (P.dsaType k.pk_dsa) k.pk_dsa = (CRYPT_OK, bytes, n) := by
  rw [ncr_pk_pack_dsa P k alg halg ha] at h
  dsimp only at h
  split at h
  · injection h with h'
    exact absurd (congrArg Prod.fst h') (tomerr_ne_zero _)
  · rename_i hcond
    injection h with h'
    have h2 := congrArg (fun t => t.2.1) h'
    have h3 := congrArg (fun t => t.2.2) h'
    dsimp only at h2 h3
    calc P.dsa_export cap (P.dsaType k.pk_dsa) k.pk_dsa
        = (CRYPT_OK, (P.dsa_export cap (P.dsaType k.pk_dsa) k.pk_dsa).2.1,
           (P.dsa_export cap (P.dsaType k.pk_dsa) k.pk_dsa).2.2) :=
          eq_triple_of_fst (not_not.mp hcond)
      _ = (CRYPT_OK, bytes, n) := by rw [h2, h3]

/-- On non-NULL pointers, `ncr_pk_unpack` into an RSA-tagged item is the
RSA import call. -/
theorem ncr_pk_unpack_rsa (P : Prims R D) (f : key_item_st R D)
    (alg : algo_properties_st) (halg : f.algorithm = some alg)
    (ha : alg.algo = .NCR_ALG_RSA) (bytes : List Nat) :
    ncr_pk_unpack P (some f) (some bytes) =
      (let res := P.rsa_import bytes
       if res.1 ≠ CRYPT_OK then some (tomerr res.1, some f)
       else some (0, some { f with pk_rsa := res.2 })) := by
  obtain ⟨a⟩ := alg
  have ha' : a = .NCR_ALG_RSA := ha
  subst ha'
  unfold ncr_pk_unpack
  dsimp only
  rw [halg]

/-- On non-NULL pointers, `ncr_pk_unpack` into a DSA-tagged item is the
DSA import call. -/
theorem ncr_pk_unpack_dsa (P : Prims R D) (f : key_item_st R D)
    (alg : algo_properties_st) (halg : f.algorithm = some alg)
    (ha : alg.algo = .NCR_ALG_DSA) (bytes : List Nat) :
    ncr_pk_unpack P (some f) (some bytes) =
      (let res := P.dsa_import bytes
       if res.1 ≠ CRYPT_OK then some (tomerr res.1, some f)
       else some (0, some { f with pk_dsa := res.2 })) := by
  obtain ⟨a⟩ := alg
  have ha' : a = .NCR_ALG_DSA := ha
  subst ha'
  unfold ncr_pk_unpack
  dsimp only
  rw [halg]

/-- C8: Under the round-trip contract of the export/import
primitives, packing an RSA or DSA key and unpacking the produced bytes
into a fresh item of the same algorithm succeeds and yields a key that
every context-based operation — encrypt, decrypt, sign, verify — treats
exactly like the original. -/
theorem c8_pack_unpack_roundtrip (P : Prims R D)
    (hR : RsaImportExportEquiv P) (hD : DsaImportExportEquiv P)
    (k fresh : key_item_st R D) (alg : algo_properties_st)
    (halg : k.algorithm = some alg)
    (hfam : alg.algo = .NCR_ALG_RSA ∨ alg.algo = .NCR_ALG_DSA)
    (hfresh : fresh.algorithm = k.algorithm)
    (cap n : Nat) (bytes : List Nat)
    (hpack : ncr_pk_pack P k false (some cap) = some (0, n, bytes)) :
    ∃ k', ncr_pk_unpack P (some fresh) (some bytes) = some (0, some k') ∧
      ∀ base : ncr_pk_ctx R D, base.algorithm = some alg →
        (∀ i out osz,
          ncr_pk_cipher_encrypt P { base with key := some k' } i out osz
            = ncr_pk_cipher_encrypt P { base with key := some k } i out osz) ∧
        (∀ i out osz,
          ncr_pk_cipher_decrypt P { base with key := some k' } i out osz
            = ncr_pk_cipher_decrypt P { base with key := some k } i out osz) ∧
        (∀ i out osz,
          ncr_pk_cipher_sign P { base with key := some k' } i out osz
            = ncr_pk_cipher_sign P { base with key := some k } i out osz) ∧
        (∀ sig hsh e,
          ncr_pk_cipher_verify P { base with key := some k' } sig hsh e
            = ncr_pk_cipher_verify P { base with key := some k } sig hsh e) := by
  obtain ⟨a⟩ := alg
  rcases hfam with ha | ha
  · have ha' : a = .NCR_ALG_RSA := ha
    subst ha'
    have hexp := pack_rsa_ok_export P k ⟨.NCR_ALG_RSA⟩ halg rfl cap n bytes
      hpack
    obtain ⟨rk, himp, heq1, heq2, heq3, heq4⟩ := hR _ _ _ _ _ hexp
    refine ⟨{ fresh with pk_rsa := rk }, ?_, ?_⟩
    · rw [ncr_pk_unpack_rsa P fresh ⟨.NCR_ALG_RSA⟩ (hfresh.trans halg) rfl]
      dsimp only
      rw [himp]
      simp [CRYPT_OK]
    · intro base hbase
      refine ⟨fun i out osz => ?_, fun i out osz => ?_, fun i out osz => ?_,
              fun sig hsh e => ?_⟩
      · unfold ncr_pk_cipher_encrypt
        dsimp only
        rw [hbase]
        dsimp only
        rw [heq1]
      · unfold ncr_pk_cipher_decrypt
        dsimp only
        rw [hbase]
        dsimp only
        rw [heq2]
      · unfold ncr_pk_cipher_sign
        dsimp only
        rw [hbase]
        dsimp only
        cases hs : base.sign_hash
        · rfl
        · dsimp only
          rw [heq3]
      · unfold ncr_pk_cipher_verify
        dsimp only
        rw [hbase]
        dsimp only
        cases hs : base.sign_hash
        · rfl
        · dsimp only
          rw [heq4]
  · have ha' : a = .NCR_ALG_DSA := ha
    subst ha'
    have hexp := pack_dsa_ok_export P k ⟨.NCR_ALG_DSA⟩ halg rfl cap n bytes
      hpack
    obtain ⟨dk, himp, heq1, heq2⟩ := hD _ _ _ _ _ hexp
    refine ⟨{ fresh with pk_dsa := dk }, ?_, ?_⟩
    · rw [ncr_pk_unpack_dsa P fresh ⟨.NCR_ALG_DSA⟩ (hfresh.trans halg) rfl]
      dsimp only
      rw [himp]
      simp [CRYPT_OK]
    · intro base hbase
      refine ⟨fun i out osz => ?_, fun i out osz => ?_, fun i out osz => ?_,
              fun sig hsh e => ?_⟩
      · unfold ncr_pk_cipher_encrypt
        dsimp only
        rw [hbase]
      · unfold ncr_pk_cipher_decrypt
        dsimp only
        rw [hbase]
      · unfold ncr_pk_cipher_sign
        dsimp only
        rw [hbase]
        dsimp only
        rw [heq1]
      · unfold ncr_pk_cipher_verify
        dsimp only
        rw [hbase]
        dsimp only
        rw [heq2]

theorem c8_witness :
    ∃ k', ncr_pk_unpack toyPrims (some (tkItem .NCR_ALG_RSA 1))
        (some [0, 7]) = some (0, some k') ∧
      ∀ base : ncr_pk_ctx TK TK, base.algorithm = some ⟨.NCR_ALG_RSA⟩ →
        (∀ i out osz,
          ncr_pk_cipher_encrypt toyPrims { base with key := some k' } i out osz
            = ncr_pk_cipher_encrypt toyPrims
                { base with key := some (tkItem .NCR_ALG_RSA 7) } i out osz) ∧
        (∀ i out osz,
          ncr_pk_cipher_decrypt toyPrims { base with key := some k' } i out osz
            = ncr_pk_cipher_decrypt toyPrims
                { base with key := some (tkItem .NCR_ALG_RSA 7) } i out osz) ∧
        (∀ i out osz,
          ncr_pk_cipher_sign toyPrims { base with key := some k' } i out osz
            = ncr_pk_cipher_sign toyPrims
                { base with key := some (tkItem .NCR_ALG_RSA 7) } i out osz) ∧
        (∀ sig hsh e,
          ncr_pk_cipher_verify toyPrims { base with key := some k' } sig hsh e
            = ncr_pk_cipher_verify toyPrims
                { base with key := some (tkItem .NCR_ALG_RSA 7) } sig hsh e) :=
  c8_pack_unpack_roundtrip toyPrims toy_rsa_ie_equiv toy_dsa_ie_equiv
    (tkItem .NCR_ALG_RSA 7) (tkItem .NCR_ALG_RSA 1) ⟨.NCR_ALG_RSA⟩ rfl
    (Or.inl rfl) rfl 2 2 [0, 7] rfl
